import Mathlib

/-!
Verification of the field-extraction engine of the PDFRenamer repository.

The development shallowly embeds the Python code of `src/pdf_tools.py`
(class `OptimizedRegexExtractor` and its helpers) and of
`src/universal_extractor.py` into Lean.  Python strings are modelled as
`List Char` (Python `len`, indexing and slicing act on code points, as
`List Char` does); Python `float` confidence arithmetic is modelled in
exact hundredths (integers scaled by 100: the model value 95 stands for
the float 0.95).  Every constant of the scorer is a multiple of 0.01, so
the scaled arithmetic is exact, and at every comparison reached by the
theorems below the IEEE-double value computed by the Python code agrees
with the exact scaled value (in particular, for the stopword scenario
the doubles give exactly 0.95 - 0.40 + 0.05 == 0.6 >= 0.6, as the exact
arithmetic does).  The one division of the scorer, the special-character
ratio, is only compared against 0.3 and is modelled by the equivalent
cross-multiplied integer comparison;
Python regular expressions are modelled by a small backtracking matcher
over a regex syntax tree, with the leftmost/greedy/lazy priority order
of the CPython `re` module, and each pattern literal of the source is
transcribed into a tree.  Python dicts are modelled as insertion-ordered
association lists, which is exactly the iteration behaviour the code
relies on.
-/

namespace PDFRenamer

/-- Str is the model of a Python `str`: a list of unicode scalar values. -/
abbrev Str := List Char

/-- pyIsSpace models Python `str.isspace` / the default `str.strip` and
`str.split` character class (unicode whitespace). -/
def pyIsSpace (c : Char) : Bool :=
  let n := c.toNat
  n = 32 ∨ (9 ≤ n ∧ n ≤ 13) ∨ (28 ≤ n ∧ n ≤ 31) ∨ n = 133 ∨ n = 160 ∨
  n = 0x1680 ∨ (0x2000 ≤ n ∧ n ≤ 0x200a) ∨ n = 0x2028 ∨ n = 0x2029 ∨
  n = 0x202f ∨ n = 0x205f ∨ n = 0x3000

/-- stripL models Python `str.strip()` (drop unicode whitespace at both ends). -/
def stripL (s : Str) : Str :=
  ((s.dropWhile pyIsSpace).reverse.dropWhile pyIsSpace).reverse

/-- lowerChar models Python `str.lower` on a single character (the code
only lowercases for comparison against ASCII vocabularies, so the ASCII
case fold is the relevant fragment). -/
def lowerChar (c : Char) : Char :=
  if 'A' ≤ c ∧ c ≤ 'Z' then Char.ofNat (c.toNat + 32) else c

/-- lowerL models Python `str.lower`. -/
def lowerL (s : Str) : Str := s.map lowerChar

/-- upperAsciiChar tests for an ASCII uppercase letter (Python `ch.isupper`
on the ASCII fragment). -/
def upperAsciiChar (c : Char) : Bool := 'A' ≤ c ∧ c ≤ 'Z'

/-- lowerAsciiChar tests for an ASCII lowercase letter. -/
def lowerAsciiChar (c : Char) : Bool := 'a' ≤ c ∧ c ≤ 'z'

/-- casedChar tests whether a character is cased (ASCII fragment). -/
def casedChar (c : Char) : Bool := upperAsciiChar c ∨ lowerAsciiChar c

/-- pyStrIsUpper models Python `str.isupper`: at least one cased character
and no lowercase cased character. -/
def pyStrIsUpper (s : Str) : Bool :=
  s.any casedChar ∧ ¬ s.any lowerAsciiChar

/-- splitChar models Python `str.split(sep)` with a one-character
separator: empty pieces are kept. -/
def splitChar (sep : Char) : Str → List Str
  | [] => [[]]
  | c :: t =>
    if c = sep then [] :: splitChar sep t
    else
      match splitChar sep t with
      | [] => [[c]]
      | p :: ps => (c :: p) :: ps

/-- wordsAux accumulates the current word (reversed) while scanning. -/
def wordsAux : Str → Str → List Str
  | [], acc => if acc = [] then [] else [acc.reverse]
  | c :: t, acc =>
    if pyIsSpace c then
      if acc = [] then wordsAux t [] else acc.reverse :: wordsAux t []
    else wordsAux t (c :: acc)

/-- wordsL models Python `str.split()` with no argument: split on runs of
whitespace, dropping empty pieces. -/
def wordsL (s : Str) : List Str := wordsAux s []

/-- joinSpace models `' '.join(words)`. -/
def joinSpace (ws : List Str) : Str := List.intercalate [' '] ws

/-- replaceAux scans the string left to right replacing each
non-overlapping occurrence of the nonempty pattern `o :: os` by `new`.
The structural `fuel` argument only needs to reach the length of the
scanned string, since every step consumes at least one character. -/
def replaceAux (o : Char) (os new : Str) : Nat → Str → Str
  | _, [] => []
  | 0, s => s
  | fuel + 1, c :: t =>
    if (o :: os).isPrefixOf (c :: t) then
      new ++ replaceAux o os new fuel (t.drop os.length)
    else c :: replaceAux o os new fuel t

/-- replaceL models Python `str.replace(old, new)`; the code never calls
it with an empty pattern, for which we return the string unchanged. -/
def replaceL (s old new : Str) : Str :=
  match old with
  | [] => s
  | o :: os => replaceAux o os new s.length s

/-- countChar models `str.count(ch)` for a single character. -/
def countChar (s : Str) (ch : Char) : Nat := s.countP (· = ch)

/-- isInfixL models Python substring containment `small in big`. -/
def isInfixL (small : Str) : Str → Bool
  | [] => small.isPrefixOf []
  | c :: t => small.isPrefixOf (c :: t) ∨ isInfixL small t

/-- RE is the abstract syntax of the fragment of Python regular
expressions used by the source.  `rep a lo hi lz` is `a{lo,hi}` (`hi =
none` meaning unbounded), lazy when `lz` is true; `grp i a` is capturing
group number `i`; `bolM` and `eolM` are the `^` and `$` assertions under
`re.MULTILINE`; `eolS` is `$` without `re.MULTILINE`; `wordB` is `\b`. -/
inductive RE where
  | eps
  | cls (p : Char → Bool)
  | seq (a b : RE)
  | alt (a b : RE)
  | rep (a : RE) (lo : Nat) (hi : Option Nat) (lz : Bool)
  | grp (i : Nat) (a : RE)
  | bolM
  | eolM
  | eolS
  | wordB

/-- Groups records captured group texts, most recent capture first. -/
abbrev Groups := List (Nat × Str)

/-- wordChar models the regex class `\w` on the ASCII fragment. -/
def wordChar (c : Char) : Bool :=
  upperAsciiChar c ∨ lowerAsciiChar c ∨ ('0' ≤ c ∧ c ≤ '9') ∨ c = '_'

/-- optWordChar extends `wordChar` to an optional character (subject
boundary counts as a non-word character). -/
def optWordChar : Option Char → Bool
  | none => false
  | some c => wordChar c

/-- matchM enumerates, in the backtracking priority order of CPython
`re` (alternatives left to right, greedy repetition longest first, lazy
repetition shortest first), the ways `r` can match a prefix of `s`.
Each way records the last consumed character, the remaining suffix, and
the captured groups.  `prev` is the character just before `s` in the
subject, for the `^`, `$` and `\b` assertions.  `fuel` bounds the
recursion depth; a zero-width iteration of an unbounded repetition ends
the repetition, as no pattern of the source repeats a nullable body. -/
def matchM (fuel : Nat) (r : RE) (prev : Option Char) (s : Str) (g : Groups) :
    List (Option Char × Str × Groups) :=
  match fuel with
  | 0 => []
  | fuel + 1 =>
    match r with
    | .eps => [(prev, s, g)]
    | .cls p =>
      match s with
      | [] => []
      | c :: t => if p c then [(some c, t, g)] else []
    | .seq a b =>
      (matchM fuel a prev s g).flatMap fun x => matchM fuel b x.1 x.2.1 x.2.2
    | .alt a b => matchM fuel a prev s g ++ matchM fuel b prev s g
    | .grp i a =>
      (matchM fuel a prev s g).map fun x =>
        (x.1, x.2.1, (i, s.take (s.length - x.2.1.length)) :: x.2.2)
    | .rep a lo hi lz =>
      if lo ≠ 0 then
        (matchM fuel a prev s g).flatMap fun x =>
          matchM fuel (.rep a (lo - 1) (hi.map (· - 1)) lz) x.1 x.2.1 x.2.2
      else
        match hi with
        | some 0 => [(prev, s, g)]
        | _ =>
          let more := (matchM fuel a prev s g).flatMap fun x =>
            if x.2.1.length < s.length then
              matchM fuel (.rep a 0 (hi.map (· - 1)) lz) x.1 x.2.1 x.2.2
            else [x]
          if lz then (prev, s, g) :: more else more ++ [(prev, s, g)]
    | .bolM => if prev = none ∨ prev = some '\n' then [(prev, s, g)] else []
    | .eolM => if s = [] ∨ s.head? = some '\n' then [(prev, s, g)] else []
    | .eolS => if s = [] ∨ s = ['\n'] then [(prev, s, g)] else []
    | .wordB =>
      if optWordChar prev ≠ optWordChar s.head? then [(prev, s, g)] else []

/-- matchFuel is a recursion-depth budget that is ample for every
pattern of the source on a subject of the given length (the depth needed
is the pattern size plus at most one unit per consumed character). -/
def matchFuel (s : Str) : Nat := s.length + 2000

/-- groupStr reads the most recent capture of group `i` (Python
`match.group(i)`); groups the code reads always participate in the
match. -/
def groupStr (g : Groups) (i : Nat) : Str :=
  (((g.find? (fun x => x.1 = i)).map (fun x => x.2))).getD []

/-- searchAux tries to match at each successive start position,
returning for the first position that matches the matched text and the
captured groups (CPython leftmost `re.search` semantics).  The
structural `fuel` argument only needs to exceed the length of the
subject. -/
def searchAux (r : RE) : Nat → Option Char → Str → Option (Str × Groups)
  | 0, _, _ => none
  | fuel + 1, prev, s =>
    match (matchM (matchFuel s) r prev s []).head? with
    | some x => some (s.take (s.length - x.2.1.length), x.2.2)
    | none =>
      match s with
      | [] => none
      | c :: t => searchAux r fuel (some c) t

/-- pySearch models `re.search(pattern, s)`: the matched text (group 0)
and the captured groups of the leftmost match. -/
def pySearch (r : RE) (s : Str) : Option (Str × Groups) :=
  searchAux r (s.length + 1) none s

/-- pyMatch models `re.match(pattern, s)`: a match anchored at the start
of the subject (a prefix of the subject may remain). -/
def pyMatch (r : RE) (s : Str) : Option (Str × Groups) :=
  match (matchM (matchFuel s) r none s []).head? with
  | some x => some (s.take (s.length - x.2.1.length), x.2.2)
  | none => none

/-- findallAux scans for successive non-overlapping leftmost matches,
advancing one character after a zero-width match as CPython does. -/
def findallAux (r : RE) (prev : Option Char) (s : Str) (fuel : Nat) :
    List (Str × Str) :=
  match fuel with
  | 0 => []
  | fuel + 1 =>
    match (matchM (matchFuel s) r prev s []).head? with
    | some x =>
      (groupStr x.2.2 1, groupStr x.2.2 2) ::
        (if s.length - x.2.1.length = 0 then
          match s with
          | [] => []
          | c :: t => findallAux r (some c) t fuel
        else findallAux r x.1 x.2.1 fuel)
    | none =>
      match s with
      | [] => []
      | c :: t => findallAux r (some c) t fuel

/-- findallKV models `pattern.findall(line)` for a pattern with exactly
two capturing groups: the (group1, group2) pairs of the successive
matches. -/
def findallKV (r : RE) (s : Str) : List (Str × Str) :=
  findallAux r none s (s.length + 1)

/-- lit is the regex literal for one character. -/
def lit (c : Char) : RE := .cls (· = c)

/-- litI is the case-insensitive regex literal for one character
(`re.IGNORECASE`). -/
def litI (c : Char) : RE := .cls (fun d => lowerChar d = lowerChar c)

/-- litW is the regex literal for a word of characters. -/
def litW (w : String) : RE := w.toList.foldr (fun c r => .seq (lit c) r) .eps

/-- litWI is the case-insensitive regex literal for a word. -/
def litWI (w : String) : RE := w.toList.foldr (fun c r => .seq (litI c) r) .eps

/-- alts chains alternatives left to right. -/
def alts : List RE → RE
  | [] => .eps
  | [r] => r
  | r :: t => .alt r (alts t)

/-- seqs chains a list of regexes sequentially. -/
def seqs : List RE → RE
  | [] => .eps
  | [r] => r
  | r :: t => .seq r (seqs t)

/-- spTab is the class `[ \t]`. -/
def spTab (c : Char) : Bool := c = ' ' ∨ c = '\t'

/-- asciiAlpha is the class `[A-Za-z]`. -/
def asciiAlpha (c : Char) : Bool := upperAsciiChar c ∨ lowerAsciiChar c

/-- digitChar is the class `\d` (ASCII fragment). -/
def digitChar (c : Char) : Bool := '0' ≤ c ∧ c ≤ '9'

/-- keyClassChar is the class `[A-Za-z0-9\s\-\.]` of the catalog key
patterns (the regex `\s` matches the same unicode whitespace set as
`str.strip`). -/
def keyClassChar (c : Char) : Bool :=
  asciiAlpha c ∨ digitChar c ∨ pyIsSpace c ∨ c = '-' ∨ c = '.'

/-- valClassChar is the class `[^\r\n]`. -/
def valClassChar (c : Char) : Bool := ¬ (c = '\r' ∨ c = '\n')

/-- colonChar is the class `[:：]` (ASCII or full-width colon). -/
def colonChar (c : Char) : Bool := c = ':' ∨ c = '：'

/-- leadWs is the leading `[ \t]*` of every catalog pattern. -/
def leadWs : RE := .rep (.cls spTab) 0 none false

/-- reStandardColon transcribes pattern 1 of
`OptimizedRegexExtractor._compile_patterns`:
`^[ \t]*([A-Za-z][A-Za-z0-9\s\-\.]{2,39})[ \t]*[:：][ \t]*([^\r\n]{1,100})[ \t]*$`. -/
def reStandardColon : RE :=
  seqs [.bolM, leadWs,
    .grp 1 (.seq (.cls asciiAlpha) (.rep (.cls keyClassChar) 2 (some 39) false)),
    leadWs, .cls colonChar, leadWs,
    .grp 2 (.rep (.cls valClassChar) 1 (some 100) false),
    leadWs, .eolM]

/-- formalWords is the alternation
`Nama|Name|Nomor|Number|No|Tanggal|Date|Tempat|Place|Alamat|Address|Telepon|Phone|Email|NIK|NIP|NPWP|Status|Jenis|Type|Kelas|Class`
of pattern 2, in source order. -/
def formalWords : RE :=
  alts [litW "Nama", litW "Name", litW "Nomor", litW "Number", litW "No",
    litW "Tanggal", litW "Date", litW "Tempat", litW "Place", litW "Alamat",
    litW "Address", litW "Telepon", litW "Phone", litW "Email", litW "NIK",
    litW "NIP", litW "NPWP", litW "Status", litW "Jenis", litW "Type",
    litW "Kelas", litW "Class"]

/-- reFormalIndonesian transcribes pattern 2 (reserved highest-trust):
`^[ \t]*((?:Nama|...|Class)[A-Za-z\s]*?)[ \t]*[:：][ \t]*([^\r\n]{1,100})[ \t]*$`. -/
def reFormalIndonesian : RE :=
  seqs [.bolM, leadWs,
    .grp 1 (.seq formalWords
      (.rep (.cls (fun c => asciiAlpha c ∨ pyIsSpace c)) 0 none true)),
    leadWs, .cls colonChar, leadWs,
    .grp 2 (.rep (.cls valClassChar) 1 (some 100) false),
    leadWs, .eolM]

/-- upKeyClassChar is the class `[A-Z0-9\s\-\.]` of pattern 3. -/
def upKeyClassChar (c : Char) : Bool :=
  upperAsciiChar c ∨ digitChar c ∨ pyIsSpace c ∨ c = '-' ∨ c = '.'

/-- reUppercaseLabels transcribes pattern 3:
`^[ \t]*([A-Z][A-Z0-9\s\-\.]{2,39})[ \t]*[:：]?[ \t]*([^\r\n]{1,100})[ \t]*$`. -/
def reUppercaseLabels : RE :=
  seqs [.bolM, leadWs,
    .grp 1 (.seq (.cls upperAsciiChar) (.rep (.cls upKeyClassChar) 2 (some 39) false)),
    leadWs, .rep (.cls colonChar) 0 (some 1) false, leadWs,
    .grp 2 (.rep (.cls valClassChar) 1 (some 100) false),
    leadWs, .eolM]

/-- reNumberedItems transcribes pattern 4:
`^[ \t]*\d+\.?[ \t]*([A-Za-z][A-Za-z0-9\s\-\.]{2,39})[ \t]*[:：][ \t]*([^\r\n]{1,100})[ \t]*$`. -/
def reNumberedItems : RE :=
  seqs [.bolM, leadWs, .rep (.cls digitChar) 1 none false,
    .rep (lit '.') 0 (some 1) false, leadWs,
    .grp 1 (.seq (.cls asciiAlpha) (.rep (.cls keyClassChar) 2 (some 39) false)),
    leadWs, .cls colonChar, leadWs,
    .grp 2 (.rep (.cls valClassChar) 1 (some 100) false),
    leadWs, .eolM]

/-- reBracketedLabels transcribes pattern 5:
`^[ \t]*[\[\(]([A-Za-z][A-Za-z0-9\s\-\.]{2,39})[\]\)][ \t]*[:：]?[ \t]*([^\r\n]{1,100})[ \t]*$`. -/
def reBracketedLabels : RE :=
  seqs [.bolM, leadWs, .cls (fun c => c = '[' ∨ c = '('),
    .grp 1 (.seq (.cls asciiAlpha) (.rep (.cls keyClassChar) 2 (some 39) false)),
    .cls (fun c => c = ']' ∨ c = ')'),
    leadWs, .rep (.cls colonChar) 0 (some 1) false, leadWs,
    .grp 2 (.rep (.cls valClassChar) 1 (some 100) false),
    leadWs, .eolM]

/-- reTableFormat transcribes pattern 6:
`^[ \t]*([A-Za-z][A-Za-z0-9\s\-\.]{2,39})[ \t]{2,}([A-Za-z0-9][^\r\n]{0,99})[ \t]*$`. -/
def reTableFormat : RE :=
  seqs [.bolM, leadWs,
    .grp 1 (.seq (.cls asciiAlpha) (.rep (.cls keyClassChar) 2 (some 39) false)),
    .rep (.cls spTab) 2 none false,
    .grp 2 (.seq (.cls (fun c => asciiAlpha c ∨ digitChar c))
      (.rep (.cls valClassChar) 0 (some 99) false)),
    leadWs, .eolM]

/-- reDashSeparated transcribes pattern 7:
`^[ \t]*([A-Za-z][A-Za-z0-9\s\-\.]{2,39})[ \t]*-[ \t]*([^\r\n]{1,100})[ \t]*$`. -/
def reDashSeparated : RE :=
  seqs [.bolM, leadWs,
    .grp 1 (.seq (.cls asciiAlpha) (.rep (.cls keyClassChar) 2 (some 39) false)),
    leadWs, lit '-', leadWs,
    .grp 2 (.rep (.cls valClassChar) 1 (some 100) false),
    leadWs, .eolM]

/-- reFlexibleSeparators transcribes pattern 8 of `pdf_tools.py`:
`^[ \t]*([A-Za-z][A-Za-z0-9\s\-\.]{2,39})[ \t]*[=|：][ \t]*([^\r\n]{1,100})[ \t]*$`
(the separator class contains `=`, `|` and the full-width colon). -/
def reFlexibleSeparators : RE :=
  seqs [.bolM, leadWs,
    .grp 1 (.seq (.cls asciiAlpha) (.rep (.cls keyClassChar) 2 (some 39) false)),
    leadWs, .cls (fun c => c = '=' ∨ c = '|' ∨ c = '：'), leadWs,
    .grp 2 (.rep (.cls valClassChar) 1 (some 100) false),
    leadWs, .eolM]

/-- compiledPatterns models `OptimizedRegexExtractor._compile_patterns`
of `pdf_tools.py`: the ordered catalog of (pattern, name, base
confidence); every pattern of the source compiles, so none is dropped by
the `re.error` handler. -/
def compiledPatterns : List (RE × String × ℤ) :=
  [(reStandardColon, "standard_colon", 95),
   (reFormalIndonesian, "formal_indonesian", 98),
   (reUppercaseLabels, "uppercase_labels", 85),
   (reNumberedItems, "numbered_items", 90),
   (reBracketedLabels, "bracketed_labels", 80),
   (reTableFormat, "table_format", 75),
   (reDashSeparated, "dash_separated", 70),
   (reFlexibleSeparators, "flexible_separators", 65)]

/-- sl converts a Lean string literal into the `Str` model. -/
def sl (s : String) : Str := s.toList

/-- dashSlash is the class matching a dash or a slash. -/
def dashSlash (c : Char) : Bool := c = '-' ∨ c = '/'

/-- reDate1 is the first date shape of `_is_date_like`: one or two
digits, dash or slash, one or two digits, dash or slash, two to four
digits, all between word boundaries. -/
def reDate1 : RE :=
  seqs [.wordB, .rep (.cls digitChar) 1 (some 2) false, .cls dashSlash,
    .rep (.cls digitChar) 1 (some 2) false, .cls dashSlash,
    .rep (.cls digitChar) 2 (some 4) false, .wordB]

/-- reDate2 is the second date shape of `_is_date_like`: two to four
digits, then twice a dash or slash followed by one or two digits, all
between word boundaries. -/
def reDate2 : RE :=
  seqs [.wordB, .rep (.cls digitChar) 2 (some 4) false, .cls dashSlash,
    .rep (.cls digitChar) 1 (some 2) false, .cls dashSlash,
    .rep (.cls digitChar) 1 (some 2) false, .wordB]

/-- reDate3 is `\b\d{1,2}\s+(Jan|...|Dec)\w*\s+\d{2,4}\b` of
`_is_date_like`, compiled with `re.IGNORECASE`. -/
def reDate3 : RE :=
  seqs [.wordB, .rep (.cls digitChar) 1 (some 2) false,
    .rep (.cls pyIsSpace) 1 none false,
    .grp 1 (alts [litWI "Jan", litWI "Feb", litWI "Mar", litWI "Apr",
      litWI "May", litWI "Jun", litWI "Jul", litWI "Aug", litWI "Sep",
      litWI "Oct", litWI "Nov", litWI "Dec"]),
    .rep (.cls wordChar) 0 none false,
    .rep (.cls pyIsSpace) 1 none false,
    .rep (.cls digitChar) 2 (some 4) false, .wordB]

/-- reDate4 is `\b\d{1,2}\s+(Januari|...|Desember)\s+\d{2,4}\b` of
`_is_date_like`, compiled with `re.IGNORECASE`. -/
def reDate4 : RE :=
  seqs [.wordB, .rep (.cls digitChar) 1 (some 2) false,
    .rep (.cls pyIsSpace) 1 none false,
    .grp 1 (alts [litWI "Januari", litWI "Februari", litWI "Maret",
      litWI "April", litWI "Mei", litWI "Juni", litWI "Juli",
      litWI "Agustus", litWI "September", litWI "Oktober",
      litWI "November", litWI "Desember"]),
    .rep (.cls pyIsSpace) 1 none false,
    .rep (.cls digitChar) 2 (some 4) false, .wordB]

/-- isDateLike models `OptimizedRegexExtractor._is_date_like`. -/
def isDateLike (value : Str) : Bool :=
  [reDate1, reDate2, reDate3, reDate4].any fun r => (pySearch r value).isSome

/-- isIdNumberLike models `OptimizedRegexExtractor._is_id_number_like`:
strip `[\s\-\.]` from the value, then try the anchored id shapes with
`re.match`. -/
def isIdNumberLike (value : Str) : Bool :=
  let clean_value := value.filter fun c => ¬ (pyIsSpace c ∨ c = '-' ∨ c = '.')
  [seqs [.rep (.cls digitChar) 16 (some 16) false],
   seqs [.rep (.cls digitChar) 15 (some 15) false],
   seqs [.rep (.cls digitChar) 18 (some 18) false],
   seqs [.cls upperAsciiChar, .rep (.cls digitChar) 7 (some 12) false],
   seqs [.rep (.cls digitChar) 8 (some 20) false]].any
    fun r => (pyMatch r clean_value).isSome

/-- isPhoneLike models `OptimizedRegexExtractor._is_phone_like`: strip
`[\s\-\(\)]`, then try the anchored Indonesian phone shapes. -/
def isPhoneLike (value : Str) : Bool :=
  let clean_value := value.filter fun c => ¬ (pyIsSpace c ∨ c = '-' ∨ c = '(' ∨ c = ')')
  [seqs [.grp 1 (alts [litW "+62", litW "62", litW "0"]),
     .rep (.cls digitChar) 8 (some 13) false],
   seqs [litW "08", .rep (.cls digitChar) 8 (some 11) false],
   seqs [litW "021", .rep (.cls digitChar) 7 (some 8) false],
   seqs [litW "0", .rep (.cls digitChar) 2 (some 3) false,
     .rep (.cls digitChar) 6 (some 8) false],
   seqs [lit '+', .rep (.cls digitChar) 10 (some 15) false]].any
    fun r => (pyMatch r clean_value).isSome

/-- reEmail is `^[a-zA-Z0-9._%+-]+@[a-zA-Z0-9.-]+\.[a-zA-Z]{2,}` of
`_is_email_like`. -/
def reEmail : RE :=
  seqs [.rep (.cls fun c => asciiAlpha c ∨ digitChar c ∨ c = '.' ∨ c = '_' ∨
      c = '%' ∨ c = '+' ∨ c = '-') 1 none false,
    lit '@',
    .rep (.cls fun c => asciiAlpha c ∨ digitChar c ∨ c = '.' ∨ c = '-') 1 none false,
    lit '.', .rep (.cls asciiAlpha) 2 none false]

/-- isEmailLike models `OptimizedRegexExtractor._is_email_like`. -/
def isEmailLike (value : Str) : Bool := (pyMatch reEmail (stripL value)).isSome

/-- reCurrency1 is `Rp\.?\s?\d{1,3}(?:\.\d{3})*(?:,\d{2})?` compiled
with `re.IGNORECASE`. -/
def reCurrency1 : RE :=
  seqs [litWI "Rp", .rep (lit '.') 0 (some 1) false,
    .rep (.cls pyIsSpace) 0 (some 1) false,
    .rep (.cls digitChar) 1 (some 3) false,
    .rep (.seq (lit '.') (.rep (.cls digitChar) 3 (some 3) false)) 0 none false,
    .rep (.seq (lit ',') (.rep (.cls digitChar) 2 (some 2) false)) 0 (some 1) false]

/-- reCurrency2 is `\$\d{1,3}(?:,\d{3})*(?:\.\d{2})?`. -/
def reCurrency2 : RE :=
  seqs [lit '$', .rep (.cls digitChar) 1 (some 3) false,
    .rep (.seq (lit ',') (.rep (.cls digitChar) 3 (some 3) false)) 0 none false,
    .rep (.seq (lit '.') (.rep (.cls digitChar) 2 (some 2) false)) 0 (some 1) false]

/-- reCurrency3 is `\d{1,3}(?:\.\d{3})*(?:,\d{2})?\s?rupiah` compiled
with `re.IGNORECASE`. -/
def reCurrency3 : RE :=
  seqs [.rep (.cls digitChar) 1 (some 3) false,
    .rep (.seq (lit '.') (.rep (.cls digitChar) 3 (some 3) false)) 0 none false,
    .rep (.seq (lit ',') (.rep (.cls digitChar) 2 (some 2) false)) 0 (some 1) false,
    .rep (.cls pyIsSpace) 0 (some 1) false, litWI "rupiah"]

/-- isCurrencyLike models `OptimizedRegexExtractor._is_currency_like`. -/
def isCurrencyLike (value : Str) : Bool :=
  [reCurrency1, reCurrency2, reCurrency3].any fun r => (pySearch r value).isSome

/-- commonIndonesianFields is the `common_indonesian_fields` vocabulary
of `_calculate_confidence` (a Python set literal; only membership is
used, so the order is irrelevant). -/
def commonIndonesianFields : List Str :=
  [sl "nama", sl "name", sl "nomor", sl "number", sl "no", sl "tanggal",
   sl "date", sl "alamat", sl "address", sl "telepon", sl "telp",
   sl "phone", sl "email", sl "nik", sl "nip", sl "npwp", sl "ktp",
   sl "id", sl "status", sl "jenis", sl "type", sl "tempat", sl "place",
   sl "lahir", sl "birth", sl "kelamin", sl "gender", sl "pekerjaan",
   sl "job", sl "pendidikan", sl "education", sl "agama", sl "religion"]

/-- specialChar is the class `[^\w\s\-\.,@/]` whose occurrences
`_calculate_confidence` counts in the value. -/
def specialChar (c : Char) : Bool :=
  ¬ (wordChar c ∨ pyIsSpace c ∨ c = '-' ∨ c = '.' ∨ c = ',' ∨ c = '@' ∨ c = '/')

/-- contentWords is the label-suspicion stopword list of
`_calculate_confidence` (`adalah`, `ini`, `dari`, `untuk`, `dengan`,
`yang`). -/
def contentWords : List Str :=
  [sl "adalah", sl "ini", sl "dari", sl "untuk", sl "dengan", sl "yang"]

/-- commonWords is the `common_words` set of `_calculate_confidence`
(labels equal to one of these connectives are penalized). -/
def commonWords : List Str :=
  [sl "dan", sl "atau", sl "dari", sl "untuk", sl "dengan", sl "pada",
   sl "di", sl "ke", sl "oleh"]

/-- confidenceAdjusted is the value of the local variable `confidence`
of `OptimizedRegexExtractor._calculate_confidence` just before the final
clamping line: the base confidence of the pattern plus the
content-analysis adjustments.  The `pattern_name` argument is accepted
and, as in the source, never used.  The source also assigns
`value_lower = value.lower()` without ever reading it. -/
def confidenceAdjusted (key value : Str) (base_confidence : ℤ) (line : Str)
    (pattern_name : String) : ℤ :=
  let confidence := base_confidence
  let key_lower := replaceL (lowerL key) [' '] []
  let confidence :=
    if commonIndonesianFields.any (fun w => isInfixL w key_lower) then
      confidence + 15
    else confidence
  let confidence :=
    if (key.head?.elim false upperAsciiChar) ∧ ¬ pyStrIsUpper key then
      confidence + 5
    else if pyStrIsUpper key ∧ key.length ≤ 10 then confidence + 10
    else confidence
  let confidence :=
    if isDateLike value then confidence + 20
    else if isIdNumberLike value then confidence + 25
    else if isPhoneLike value then confidence + 20
    else if isEmailLike value then confidence + 25
    else if isCurrencyLike value then confidence + 15
    else confidence
  let confidence :=
    if value.length < 2 then confidence - 30
    else if value.length > 80 then confidence - 10
    else confidence
  let special_char_count := value.countP specialChar
  let confidence :=
    if value.length > 0 ∧ 3 * value.length < 10 * special_char_count then
      confidence - 25
    else confidence
  let confidence :=
    if contentWords.any (fun w => isInfixL w key_lower) then
      confidence - 40
    else confidence
  let confidence :=
    if isInfixL (sl ":") line ∧ countChar line ':' = 1 then
      confidence + 5
    else confidence
  if key_lower ∈ commonWords then confidence - 50 else confidence

/-- calculateConfidence models
`OptimizedRegexExtractor._calculate_confidence` of `pdf_tools.py`: the
adjusted confidence, clamped to [0, 1] (here [0, 100] in hundredths) by
the final `return min(1.0, max(0.0, confidence))`. -/
def calculateConfidence (key value : Str) (base_confidence : ℤ) (line : Str)
    (pattern_name : String) : ℤ :=
  min 100 (max 0 (confidenceAdjusted key value base_confidence line pattern_name))

/-- ExtractedField models the dataclass `ExtractedField` of
`pdf_tools.py`. -/
structure ExtractedField where
  key : Str
  value : Str
  confidence : ℤ
  pattern_used : String
  line_number : Nat
deriving DecidableEq, Repr

/-- noiseWords is the `noise_words` list of `_normalize_field_name`. -/
def noiseWords : List Str :=
  [sl "no", sl "nomor", sl "number", sl "kode", sl "code", sl "id"]

/-- standardizations is the abbreviation-expansion dict of
`_normalize_field_name`, in insertion order. -/
def standardizations : List (Str × Str) :=
  [(sl "nm", sl "nama"), (sl "tgl", sl "tanggal"), (sl "telp", sl "telepon"),
   (sl "hp", sl "handphone"), (sl "almt", sl "alamat"), (sl "tmp", sl "tempat"),
   (sl "tpt", sl "tempat"), (sl "jns", sl "jenis"), (sl "kel", sl "kelamin"),
   (sl "stat", sl "status")]

/-- translations is the English-Indonesian dict of
`_normalize_field_name`, in insertion order. -/
def translations : List (Str × Str) :=
  [(sl "name", sl "nama"), (sl "date", sl "tanggal"),
   (sl "address", sl "alamat"), (sl "phone", sl "telepon"),
   (sl "email", sl "email"), (sl "status", sl "status"),
   (sl "type", sl "jenis"), (sl "place", sl "tempat")]

/-- normalizeFieldName models
`OptimizedRegexExtractor._normalize_field_name` of `pdf_tools.py`:
lowercase and strip; drop noise words unless that would empty the label;
expand each abbreviation occurring as the whole label or as its last
word (replacing every occurrence); rewrite each contained
English token to its Indonesian form (replacing every occurrence). -/
def normalizeFieldName (field_name : Str) : Str :=
  let normalized := stripL (lowerL field_name)
  let words := wordsL normalized
  let cleaned_words := words.filter fun w => ¬ (w ∈ noiseWords)
  let normalized := if cleaned_words ≠ [] then joinSpace cleaned_words else normalized
  let normalized := standardizations.foldl
    (fun n p => if n = p.1 ∨ (' ' :: p.1).isSuffixOf n then replaceL n p.1 p.2 else n)
    normalized
  let normalized := translations.foldl
    (fun n p => if isInfixL p.1 n then replaceL n p.1 p.2 else n)
    normalized
  normalized

/-- pyLines models `text.split('\n')`. -/
def pyLines (text : Str) : List Str := splitChar '\n' text

/-- scanLine models the body of the per-line loop of
`OptimizedRegexExtractor.extract_fields_advanced`: strip the line, skip
it when shorter than 5 characters, and otherwise collect, for every
catalog pattern and every match, the candidates that pass the length
bounds and reach the confidence threshold. -/
def scanLine (min_confidence : ℤ) (line_num : Nat) (rawLine : Str) :
    List ExtractedField :=
  let line := stripL rawLine
  if line.length < 5 then []
  else
    compiledPatterns.flatMap fun pat =>
      (findallKV pat.1 line).filterMap fun kv =>
        let key := stripL kv.1
        let value := stripL kv.2
        if key.length < 2 ∨ key.length > 40 ∨ value.length < 1 ∨ value.length > 100 then
          none
        else
          let confidence := calculateConfidence key value pat.2.2 line pat.2.1
          if min_confidence ≤ confidence then
            some ⟨key, value, confidence, pat.2.1, line_num⟩
          else none

/-- allMatches is the list `all_matches` accumulated by
`extract_fields_advanced` over the enumerated lines of the text. -/
def allMatches (text : Str) (min_confidence : ℤ) : List ExtractedField :=
  (pyLines text).enum.flatMap fun p => scanLine min_confidence p.1 p.2

/-- addToGroup appends a match to the group of its normalized key,
creating the group at the end on first sight (Python dict insertion
order). -/
def addToGroup : List (Str × List ExtractedField) → Str → ExtractedField →
    List (Str × List ExtractedField)
  | [], k, m => [(k, [m])]
  | p :: t, k, m =>
    if p.1 = k then (p.1, p.2 ++ [m]) :: t else p :: addToGroup t k m

/-- fieldGroups models the `field_groups` dict of
`_deduplicate_fields`: matches grouped by normalized field name. -/
def fieldGroups (ms : List ExtractedField) : List (Str × List ExtractedField) :=
  ms.foldl (fun gs m => addToGroup gs (normalizeFieldName m.key) m) []

/-- strLtL is the lexicographic code-point order on strings, which is
how Python compares the `pattern_used` strings in the sort key. -/
def strLtL : Str → Str → Bool
  | [], [] => false
  | [], _ :: _ => true
  | _ :: _, [] => false
  | a :: as, b :: bs =>
    if a.toNat < b.toNat then true
    else if b.toNat < a.toNat then false
    else strLtL as bs

/-- fieldLt is the strict version of the sort key
`(-confidence, line_number, pattern_used)` used by
`_deduplicate_fields`. -/
def fieldLt (a b : ExtractedField) : Bool :=
  if a.confidence = b.confidence then
    if a.line_number = b.line_number then
      strLtL a.pattern_used.toList b.pattern_used.toList
    else a.line_number < b.line_number
  else b.confidence < a.confidence

/-- selectBest models `group.sort(key=lambda x: (-x.confidence,
x.line_number, x.pattern_used)); group[0]`: the first minimal element of
the group under the sort key (Python sort is stable, so the element kept
among key-equal ones is the earliest inserted). -/
def selectBest (x : ExtractedField) (xs : List ExtractedField) : ExtractedField :=
  xs.foldl (fun best y => if fieldLt y best then y else best) x

/-- upsert models Python dict assignment `d[k] = v` on an
insertion-ordered association list. -/
def upsert : List (Str × ExtractedField) → Str → ExtractedField →
    List (Str × ExtractedField)
  | [], k, v => [(k, v)]
  | p :: t, k, v => if p.1 = k then (p.1, v) :: t else p :: upsert t k v

/-- dedupStep is the body of the per-group loop of
`_deduplicate_fields`: store the best match of the group under its
original key. -/
def dedupStep (acc : List (Str × ExtractedField)) (g : Str × List ExtractedField) :
    List (Str × ExtractedField) :=
  match g.2 with
  | [] => acc
  | x :: xs => upsert acc (selectBest x xs).key (selectBest x xs)

/-- deduplicateFields models
`OptimizedRegexExtractor._deduplicate_fields`: group by normalized key,
pick the best match of each group, and key the result by the winning
match's original key.  The early return of the source for an empty match
list coincides with the general case. -/
def deduplicateFields (ms : List ExtractedField) : List (Str × ExtractedField) :=
  (fieldGroups ms).foldl dedupStep []

/-- extractFieldsAdvanced models
`OptimizedRegexExtractor.extract_fields_advanced` of `pdf_tools.py` (the
`extract` operation of the specification), returning the
insertion-ordered mapping from display key to field. -/
def extractFieldsAdvanced (text : Str) (min_confidence : ℤ) :
    List (Str × ExtractedField) :=
  if text = [] ∨ stripL text = [] then []
  else deduplicateFields (allMatches text min_confidence)

/-- anyChar is the class `.` under `re.DOTALL`. -/
def anyChar (c : Char) : Bool := c = c

/-- dotNoNl is the class `.` without `re.DOTALL` (anything but a
newline). -/
def dotNoNl (c : Char) : Bool := ¬ (c = '\n')

/-- wsStar is `\s*`. -/
def wsStar : RE := .rep (.cls pyIsSpace) 0 none false

/-- cleanFilename models `clean_filename` of `universal_extractor.py`:
replace every slash with a dash, delete the characters of the class
matching backslash, star, question mark, colon, double quote, angle
brackets and pipe, and strip the ends. -/
def cleanFilename (name : Str) : Str :=
  let name := replaceL name (sl "/") (sl "-")
  stripL (name.filter fun c =>
    ¬ (c = '\\' ∨ c = '*' ∨ c = '?' ∨ c = ':' ∨ c = '"' ∨ c = '<' ∨ c = '>' ∨ c = '|'))

/-- reBuyerBlock is `Pembeli Barang Kena Pajak.*?(Alamat|NPWP)` under
`re.DOTALL`. -/
def reBuyerBlock : RE :=
  seqs [litW "Pembeli Barang Kena Pajak", .rep (.cls anyChar) 0 none true,
    .grp 1 (.alt (litW "Alamat") (litW "NPWP"))]

/-- rePkpBlock is `Pengusaha Kena Pajak.*?(Alamat|NPWP)` under
`re.DOTALL`. -/
def rePkpBlock : RE :=
  seqs [litW "Pengusaha Kena Pajak", .rep (.cls anyChar) 0 none true,
    .grp 1 (.alt (litW "Alamat") (litW "NPWP"))]

/-- reNamaLine is `Nama\s*[:：]\s*(.*?)\s*(?:\n|$)`. -/
def reNamaLine : RE :=
  seqs [litW "Nama", wsStar, .cls colonChar, wsStar,
    .grp 1 (.rep (.cls dotNoNl) 0 none true), wsStar,
    .alt (lit '\n') .eolS]

/-- reReferensi is `\(Referensi:\s*(.*?)\)` of `try_faktur_pattern`. -/
def reReferensi : RE :=
  seqs [lit '(', litW "Referensi:", wsStar,
    .grp 1 (.rep (.cls dotNoNl) 0 none true), lit ')']

/-- reReferensiParen is `\(Referensi:\s*([^)]+)\)` of
`try_faktur_masukan_pattern`. -/
def reReferensiParen : RE :=
  seqs [lit '(', litW "Referensi:", wsStar,
    .grp 1 (.rep (.cls fun c => ¬ (c = ')')) 1 none false), lit ')']

/-- rePerj is `Perj*[:：]\s*(.*?)\s*(?:\n|$)` of
`try_faktur2_indomarco_pattern` (the starred `j` is transcribed as
written). -/
def rePerj : RE :=
  seqs [litW "Per", .rep (lit 'j') 0 none false, .cls colonChar, wsStar,
    .grp 1 (.rep (.cls dotNoNl) 0 none true), wsStar,
    .alt (lit '\n') .eolS]

/-- reDigitsDot is `\d{2}\.\d{3}`, the shape rejected as a name by the
faktur extractors. -/
def reDigitsDot : RE :=
  seqs [.rep (.cls digitChar) 2 (some 2) false, lit '.',
    .rep (.cls digitChar) 3 (some 3) false]

/-- reNoFaktur is `No\.\s*Faktur\s*[:：]\s*(\S+)`. -/
def reNoFaktur : RE :=
  seqs [litW "No", lit '.', wsStar, litW "Faktur", wsStar, .cls colonChar,
    wsStar, .grp 1 (.rep (.cls fun c => ¬ pyIsSpace c) 1 none false)]

/-- reMasaPajak is `MASA PAJAK.*?\n.*?(\d{2}-\d{4})` under `re.DOTALL`. -/
def reMasaPajak : RE :=
  seqs [litW "MASA PAJAK", .rep (.cls anyChar) 0 none true, lit '\n',
    .rep (.cls anyChar) 0 none true,
    .grp 1 (seqs [.rep (.cls digitChar) 2 (some 2) false, lit '-',
      .rep (.cls digitChar) 4 (some 4) false])]

/-- reNamaUpper is `NAMA\s*:\s*([^\n]+)` of `try_bukti_potong_pattern`. -/
def reNamaUpper : RE :=
  seqs [litW "NAMA", wsStar, lit ':', wsStar,
    .grp 1 (.rep (.cls dotNoNl) 1 none false)]

/-- reNomorDokumen is `Nomor Dokumen\s*:\s*(\S+)`. -/
def reNomorDokumen : RE :=
  seqs [litW "Nomor Dokumen", wsStar, lit ':', wsStar,
    .grp 1 (.rep (.cls fun c => ¬ pyIsSpace c) 1 none false)]

/-- reKodeBilling is `KODE BILLING\s*[:：]\s*(\d+)`. -/
def reKodeBilling : RE :=
  seqs [litW "KODE BILLING", wsStar, .cls colonChar, wsStar,
    .grp 1 (.rep (.cls digitChar) 1 none false)]

/-- reNamaBilling is `NAMA\s*[:：]\s*(.*?)\s*(?:\n|$)` of
`try_billing_pattern`. -/
def reNamaBilling : RE :=
  seqs [litW "NAMA", wsStar, .cls colonChar, wsStar,
    .grp 1 (.rep (.cls dotNoNl) 0 none true), wsStar,
    .alt (lit '\n') .eolS]

/-- reMasaBilling is `\b\d{6}-\d{3}\s+(\d{8})\b`. -/
def reMasaBilling : RE :=
  seqs [.wordB, .rep (.cls digitChar) 6 (some 6) false, lit '-',
    .rep (.cls digitChar) 3 (some 3) false,
    .rep (.cls pyIsSpace) 1 none false,
    .grp 1 (.rep (.cls digitChar) 8 (some 8) false), .wordB]

/-- reUnifikasi is `\b41112\d*-\d+\b`. -/
def reUnifikasi : RE :=
  seqs [.wordB, litW "41112", .rep (.cls digitChar) 0 none false, lit '-',
    .rep (.cls digitChar) 1 none false, .wordB]

/-- reJumlah is `Jumlah\s*:\s*(Rp\s*[\d,]+\.\d{2})` of
`try_bukti_tf_pattern`. -/
def reJumlah : RE :=
  seqs [litW "Jumlah", wsStar, lit ':', wsStar,
    .grp 1 (seqs [litW "Rp", wsStar,
      .rep (.cls fun c => digitChar c ∨ c = ',') 1 none false, lit '.',
      .rep (.cls digitChar) 2 (some 2) false])]

/-- reDisetujui is `Disetujui\s+(\d{2}/\d{2}/\d{4})`. -/
def reDisetujui : RE :=
  seqs [litW "Disetujui", .rep (.cls pyIsSpace) 1 none false,
    .grp 1 (seqs [.rep (.cls digitChar) 2 (some 2) false, lit '/',
      .rep (.cls digitChar) 2 (some 2) false, lit '/',
      .rep (.cls digitChar) 4 (some 4) false])]

/-- collapseWsAux realizes `re.sub(r'\s+', ' ', s)` with a structural
fuel argument that only needs to reach the length of the string. -/
def collapseWsAux : Nat → Str → Str
  | _, [] => []
  | 0, s => s
  | fuel + 1, c :: t =>
    if pyIsSpace c then ' ' :: collapseWsAux fuel (t.dropWhile pyIsSpace)
    else c :: collapseWsAux fuel t

/-- collapseWs models `re.sub(r'\s+', ' ', s)`: every maximal run of
whitespace becomes a single space. -/
def collapseWs (s : Str) : Str := collapseWsAux s.length s

/-- tryFakturPattern models `try_faktur_pattern`. -/
def tryFakturPattern (text : Str) : Option Str :=
  match pySearch reBuyerBlock text with
  | none => none
  | some bm =>
    match pySearch reNamaLine bm.1 with
    | none => none
    | some nm =>
      match pySearch reReferensi text with
      | none => none
      | some rm =>
        let referensi := cleanFilename (groupStr rm.2 1)
        let nama := cleanFilename (groupStr nm.2 1)
        if (pyMatch reDigitsDot nama).isSome then none
        else some (referensi ++ sl " " ++ nama ++ sl ".pdf")

/-- tryFakturMasukanPattern models `try_faktur_masukan_pattern`. -/
def tryFakturMasukanPattern (text : Str) : Option Str :=
  match pySearch rePkpBlock text with
  | none => none
  | some bm =>
    match pySearch reNamaLine bm.1 with
    | none => none
    | some nm =>
      match pySearch reReferensiParen text with
      | none => none
      | some rm =>
        let referensi := cleanFilename (groupStr rm.2 1)
        let nama := cleanFilename (groupStr nm.2 1)
        if (pyMatch reDigitsDot nama).isSome then none
        else some (nama ++ sl " " ++ referensi ++ sl ".pdf")

/-- tryFaktur2IndomarcoPattern models `try_faktur2_indomarco_pattern`. -/
def tryFaktur2IndomarcoPattern (text : Str) : Option Str :=
  match pySearch rePkpBlock text with
  | none => none
  | some bm =>
    match pySearch reNamaLine bm.1 with
    | none => none
    | some nm =>
      match pySearch rePerj text with
      | none => none
      | some rm =>
        let referensi := cleanFilename (groupStr rm.2 1)
        let nama := cleanFilename (groupStr nm.2 1)
        if (pyMatch reDigitsDot nama).isSome then none
        else some (referensi ++ sl " " ++ nama ++ sl ".pdf")

/-- tryFakturPenjualanPattern models `try_faktur_penjualan_pattern`. -/
def tryFakturPenjualanPattern (text : Str) : Option Str :=
  match pySearch reNoFaktur text with
  | none => none
  | some m =>
    let referensi := cleanFilename (groupStr m.2 1)
    some (sl "No Faktur - " ++ referensi ++ sl ".pdf")

/-- tryBuktiPotongPattern models `try_bukti_potong_pattern`. -/
def tryBuktiPotongPattern (text : Str) : Option Str :=
  match pySearch reMasaPajak text, pySearch reNamaUpper text,
      pySearch reNomorDokumen text with
  | some mm, some nm, some dm =>
    let masa_pajak := cleanFilename (groupStr mm.2 1)
    let nama_wp := cleanFilename (groupStr nm.2 1)
    let nomor_dokumen := cleanFilename (groupStr dm.2 1)
    some (masa_pajak ++ sl " - " ++ nama_wp ++ sl " - " ++ nomor_dokumen ++ sl ".pdf")
  | _, _, _ => none

/-- tryBillingPattern models `try_billing_pattern`. -/
def tryBillingPattern (text : Str) : Option Str :=
  match pySearch reKodeBilling text, pySearch reNamaBilling text,
      pySearch reMasaBilling text with
  | some km, some nm, some mm =>
    let kode_billing := cleanFilename (groupStr km.2 1)
    let nama := cleanFilename (groupStr nm.2 1)
    let masa_pajak := cleanFilename (groupStr mm.2 1)
    let unifikasi_part :=
      if (pySearch reUnifikasi text).isSome then sl "-Unifikasi" else []
    some (kode_billing ++ sl "-" ++ nama ++ unifikasi_part ++ sl "-" ++
      masa_pajak ++ sl ".pdf")
  | _, _, _ => none

/-- findNamaPenerima models the line loop of `try_bukti_tf_pattern`: in
the first line containing both `Rekening Tujuan` and a slash, take the
second slash-separated piece with `(Rp)` deleted (the `IndexError`
handler of the source is unreachable since a line containing a slash
splits into at least two pieces). -/
def findNamaPenerima : List Str → Option Str
  | [] => none
  | b :: rest =>
    if isInfixL (sl "Rekening Tujuan") b ∧ isInfixL (sl "/") b then
      match (splitChar '/' b).get? 1 with
      | some piece => some (replaceL piece (sl "(Rp)") [])
      | none => findNamaPenerima rest
    else findNamaPenerima rest

/-- tryBuktiTfPattern models `try_bukti_tf_pattern`; the final Python
truthiness test fails for an unset variable and for an empty string
alike. -/
def tryBuktiTfPattern (text : Str) : Option Str :=
  let nama_penerima := findNamaPenerima (pyLines text)
  let nominal_transfer :=
    (pySearch reJumlah text).map fun m => collapseWs (groupStr m.2 1)
  let tanggal_setuju := (pySearch reDisetujui text).map fun m => groupStr m.2 1
  match nama_penerima, nominal_transfer, tanggal_setuju with
  | some np, some nt, some tg =>
    if np ≠ [] ∧ nt ≠ [] ∧ tg ≠ [] then
      some (replaceL
        (cleanFilename np ++ sl " - " ++ nt ++ sl " - " ++ cleanFilename tg ++
          sl ".pdf")
        (sl ",") (sl "."))
    else none
  | _, _, _ => none

/-- builtInTemplates models the `BUILT_IN_TEMPLATES` dict of
`universal_extractor.py`, in insertion order. -/
def builtInTemplates : List (String × (Str → Option Str)) :=
  [("📄 Faktur Pajak Keluaran", tryFakturPattern),
   ("📄 Faktur Pajak Masukan", tryFakturMasukanPattern),
   ("📄 Faktur Penjualan", tryFakturPenjualanPattern),
   ("📄 Faktur Pajak Indomarco", tryFaktur2IndomarcoPattern),
   ("🧾 Bukti Potong Pajak", tryBuktiPotongPattern),
   ("💳 Kode Billing Pajak", tryBillingPattern),
   ("💸 Bukti Transfer", tryBuktiTfPattern)]

/-- runUniversalExtraction models `run_universal_extraction` of
`universal_extractor.py`. -/
def runUniversalExtraction (text : Str) (template_name : String) : Option Str :=
  match builtInTemplates.find? (fun p => p.1 = template_name) with
  | some p => p.2 text
  | none => none

/-! ### Structural lemmas about the scoring and resolution pipeline -/

/-- calcConf_mem_unit: every score leaving the scorer lies in [0, 1],
by the final clamping line of `_calculate_confidence`. -/
theorem calcConf_mem_unit (k v : Str) (b : ℤ) (l : Str) (p : String) :
    0 ≤ calculateConfidence k v b l p ∧ calculateConfidence k v b l p ≤ 100 := by
  unfold calculateConfidence
  exact ⟨le_min (by norm_num) (le_max_left 0 _), min_le_left _ _⟩

/-- mem_scanLine: every candidate emitted for a line passed the length
bounds and the confidence threshold, carries a scorer-produced
confidence, and records the line number. -/
theorem mem_scanLine {mc : ℤ} {n : Nat} {raw : Str} {f : ExtractedField}
    (h : f ∈ scanLine mc n raw) :
    mc ≤ f.confidence ∧
    (2 ≤ f.key.length ∧ f.key.length ≤ 40 ∧
      1 ≤ f.value.length ∧ f.value.length ≤ 100) ∧
    (∃ k v b l p, f = ⟨k, v, calculateConfidence k v b l p, p, n⟩) := by
  unfold scanLine at h
  by_cases hlen : (stripL raw).length < 5
  · simp [hlen] at h
  · simp only [hlen, if_false] at h
    rw [List.mem_flatMap] at h
    obtain ⟨pat, hpat, hf⟩ := h
    rw [List.mem_filterMap] at hf
    obtain ⟨kv, hkv, hsome⟩ := hf
    by_cases hb : (stripL kv.1).length < 2 ∨ 40 < (stripL kv.1).length ∨
        (stripL kv.2).length < 1 ∨ 100 < (stripL kv.2).length
    · rw [if_pos] at hsome
      · exact absurd hsome (by simp)
      · simpa using hb
    · rw [if_neg (by simpa using hb)] at hsome
      by_cases hc : mc ≤ calculateConfidence (stripL kv.1) (stripL kv.2)
          pat.2.2 (stripL raw) pat.2.1
      · rw [if_pos hc] at hsome
        cases hsome
        push_neg at hb
        refine ⟨hc, by simp; omega, ?_⟩
        exact ⟨stripL kv.1, stripL kv.2, pat.2.2, stripL raw, pat.2.1, rfl⟩
      · rw [if_neg hc] at hsome
        exact absurd hsome (by simp)

/-- mem_allMatches: the candidate list of one extraction call only
contains candidates with the properties established per line. -/
theorem mem_allMatches {text : Str} {mc : ℤ} {f : ExtractedField}
    (h : f ∈ allMatches text mc) :
    mc ≤ f.confidence ∧
    (2 ≤ f.key.length ∧ f.key.length ≤ 40 ∧
      1 ≤ f.value.length ∧ f.value.length ≤ 100) ∧
    (∃ k v b l p n, f = ⟨k, v, calculateConfidence k v b l p, p, n⟩) := by
  unfold allMatches at h
  rw [List.mem_flatMap] at h
  obtain ⟨q, hq, hf⟩ := h
  obtain ⟨h1, h2, k, v, b, l, p, h3⟩ := mem_scanLine hf
  exact ⟨h1, h2, k, v, b, l, p, q.1, h3⟩

/-- selectBest_mem: the winner of a group is a member of the group. -/
theorem selectBest_mem (x : ExtractedField) (xs : List ExtractedField) :
    selectBest x xs ∈ x :: xs := by
  unfold selectBest
  induction xs generalizing x with
  | nil => simp
  | cons y t ih =>
    simp only [List.foldl_cons]
    by_cases h : fieldLt y x
    · rw [if_pos h]
      rcases List.mem_cons.mp (ih y) with h1 | h1
      · simp [h1]
      · simp [h1]
    · rw [if_neg h]
      rcases List.mem_cons.mp (ih x) with h1 | h1
      · simp [h1]
      · simp [h1]

/-- mem_upsert: an entry of the updated dict is an old entry or the
assigned pair. -/
theorem mem_upsert {acc : List (Str × ExtractedField)} {k : Str}
    {v : ExtractedField} {q : Str × ExtractedField} (h : q ∈ upsert acc k v) :
    q ∈ acc ∨ q = (k, v) := by
  induction acc with
  | nil => simpa [upsert] using h
  | cons p t ih =>
    unfold upsert at h
    by_cases hpk : p.1 = k
    · rw [if_pos hpk] at h
      rcases List.mem_cons.mp h with h1 | h1
      · right; rw [h1, hpk]
      · left; exact List.mem_cons_of_mem _ h1
    · rw [if_neg hpk] at h
      rcases List.mem_cons.mp h with h1 | h1
      · left; simp [h1]
      · rcases ih h1 with h2 | h2
        · left; exact List.mem_cons_of_mem _ h2
        · right; exact h2

/-- upsert_of_fresh: assigning an absent key appends the pair. -/
theorem upsert_of_fresh {acc : List (Str × ExtractedField)} {k : Str}
    {v : ExtractedField} (h : ∀ p ∈ acc, p.1 ≠ k) :
    upsert acc k v = acc ++ [(k, v)] := by
  induction acc with
  | nil => rfl
  | cons p t ih =>
    unfold upsert
    rw [if_neg (h p (by simp))]
    rw [ih fun q hq => h q (List.mem_cons_of_mem _ hq)]
    rfl

/-- addToGroup_inv: adding a match to its group preserves the per-group
invariant that members satisfy `S` and normalize to the group key. -/
theorem addToGroup_inv {S : ExtractedField → Prop}
    {gs : List (Str × List ExtractedField)} {k : Str} {m : ExtractedField}
    (hgs : ∀ q ∈ gs, ∀ f ∈ q.2, S f ∧ normalizeFieldName f.key = q.1)
    (hm : S m) (hk : normalizeFieldName m.key = k) :
    ∀ q ∈ addToGroup gs k m, ∀ f ∈ q.2, S f ∧ normalizeFieldName f.key = q.1 := by
  induction gs with
  | nil =>
    intro q hq f hf
    simp [addToGroup] at hq
    subst hq
    simp at hf
    subst hf
    exact ⟨hm, hk⟩
  | cons p t ih =>
    intro q hq f hf
    unfold addToGroup at hq
    by_cases hpk : p.1 = k
    · rw [if_pos hpk] at hq
      rcases List.mem_cons.mp hq with h1 | h1
      · subst h1
        simp only [List.mem_append, List.mem_singleton] at hf
        rcases hf with hf | hf
        · exact hgs p (by simp) f hf
        · subst hf; exact ⟨hm, by rw [hk, hpk]⟩
      · exact hgs q (List.mem_cons_of_mem _ h1) f hf
    · rw [if_neg hpk] at hq
      rcases List.mem_cons.mp hq with h1 | h1
      · subst h1; exact hgs q (by simp) f hf
      · exact ih (fun q₀ hq₀ => hgs q₀ (List.mem_cons_of_mem _ hq₀)) q h1 f hf

/-- addToGroup_ne_nil: groups stay nonempty. -/
theorem addToGroup_ne_nil {gs : List (Str × List ExtractedField)} {k : Str}
    {m : ExtractedField} (h : ∀ q ∈ gs, q.2 ≠ []) :
    ∀ q ∈ addToGroup gs k m, q.2 ≠ [] := by
  induction gs with
  | nil =>
    intro q hq
    simp [addToGroup] at hq
    subst hq
    simp
  | cons p t ih =>
    intro q hq
    unfold addToGroup at hq
    by_cases hpk : p.1 = k
    · rw [if_pos hpk] at hq
      rcases List.mem_cons.mp hq with h1 | h1
      · subst h1; simp
      · exact h q (List.mem_cons_of_mem _ h1)
    · rw [if_neg hpk] at hq
      rcases List.mem_cons.mp hq with h1 | h1
      · subst h1; exact h q (by simp)
      · exact ih (fun q₀ hq₀ => h q₀ (List.mem_cons_of_mem _ hq₀)) q h1

/-- addToGroup_keys: the key list is unchanged when the key is already
present and gains the key at the end otherwise. -/
theorem addToGroup_keys (gs : List (Str × List ExtractedField)) (k : Str)
    (m : ExtractedField) :
    (addToGroup gs k m).map Prod.fst =
      if k ∈ gs.map Prod.fst then gs.map Prod.fst else gs.map Prod.fst ++ [k] := by
  induction gs with
  | nil => simp [addToGroup]
  | cons p t ih =>
    unfold addToGroup
    by_cases hpk : p.1 = k
    · rw [if_pos hpk]
      have : k ∈ (p :: t).map Prod.fst := by simp [hpk.symm]
      rw [if_pos this]
      simp
    · rw [if_neg hpk]
      by_cases hkt : k ∈ t.map Prod.fst
      · have : k ∈ (p :: t).map Prod.fst := by simp [hkt]
        rw [if_pos this]
        simp only [List.map_cons, ih, if_pos hkt]
      · have : ¬ k ∈ (p :: t).map Prod.fst := by
          simp only [List.map_cons, List.mem_cons]
          push_neg
          exact ⟨fun hc => hpk hc.symm, hkt⟩
        rw [if_neg this]
        simp only [List.map_cons, ih, if_neg hkt]
        rfl

/-- fieldGroupsAux is the fold underlying `fieldGroups`, made explicit
for the inductions below. -/
theorem fieldGroups_eq_foldl (ms : List ExtractedField) :
    fieldGroups ms =
      ms.foldl (fun gs m => addToGroup gs (normalizeFieldName m.key) m) [] := rfl

/-- fieldGroups_foldl_inv: the grouping fold preserves the per-group
invariant. -/
theorem fieldGroups_foldl_inv {S : ExtractedField → Prop} :
    ∀ (ms : List ExtractedField) (gs : List (Str × List ExtractedField)),
    (∀ q ∈ gs, ∀ f ∈ q.2, S f ∧ normalizeFieldName f.key = q.1) →
    (∀ m ∈ ms, S m) →
    ∀ q ∈ ms.foldl (fun gs m => addToGroup gs (normalizeFieldName m.key) m) gs,
      ∀ f ∈ q.2, S f ∧ normalizeFieldName f.key = q.1 := by
  intro ms
  induction ms with
  | nil => intro gs hgs _ q hq; exact hgs q hq
  | cons m t ih =>
    intro gs hgs hms q hq f hf
    rw [List.foldl_cons] at hq
    exact ih _ (addToGroup_inv hgs (hms m (by simp)) rfl)
      (fun x hx => hms x (List.mem_cons_of_mem _ hx)) q hq f hf

/-- fieldGroups_inv: every member of a group of `fieldGroups ms` comes
from `ms` and normalizes to the group key. -/
theorem fieldGroups_inv {ms : List ExtractedField} :
    ∀ q ∈ fieldGroups ms, ∀ f ∈ q.2, f ∈ ms ∧ normalizeFieldName f.key = q.1 := by
  rw [fieldGroups_eq_foldl]
  exact fieldGroups_foldl_inv ms [] (by simp) (fun m hm => hm)

/-- fieldGroups_foldl_ne_nil: the grouping fold keeps groups nonempty. -/
theorem fieldGroups_foldl_ne_nil :
    ∀ (ms : List ExtractedField) (gs : List (Str × List ExtractedField)),
    (∀ q ∈ gs, q.2 ≠ []) →
    ∀ q ∈ ms.foldl (fun gs m => addToGroup gs (normalizeFieldName m.key) m) gs,
      q.2 ≠ [] := by
  intro ms
  induction ms with
  | nil => intro gs hgs q hq; exact hgs q hq
  | cons m t ih =>
    intro gs hgs q hq
    rw [List.foldl_cons] at hq
    exact ih _ (addToGroup_ne_nil hgs) q hq

/-- fieldGroups_ne_nil: groups of `fieldGroups` are nonempty. -/
theorem fieldGroups_ne_nil {ms : List ExtractedField} :
    ∀ q ∈ fieldGroups ms, q.2 ≠ [] := by
  rw [fieldGroups_eq_foldl]
  exact fieldGroups_foldl_ne_nil ms [] (by simp)

/-- fieldGroups_foldl_nodup: the grouping fold keeps the group keys
without duplicates. -/
theorem fieldGroups_foldl_nodup :
    ∀ (ms : List ExtractedField) (gs : List (Str × List ExtractedField)),
    (gs.map Prod.fst).Nodup →
    ((ms.foldl (fun gs m => addToGroup gs (normalizeFieldName m.key) m) gs).map
      Prod.fst).Nodup := by
  intro ms
  induction ms with
  | nil => intro gs h; exact h
  | cons m t ih =>
    intro gs h
    rw [List.foldl_cons]
    apply ih
    rw [addToGroup_keys]
    by_cases hk : normalizeFieldName m.key ∈ gs.map Prod.fst
    · rw [if_pos hk]; exact h
    · rw [if_neg hk]
      rw [List.nodup_append]
      refine ⟨h, List.nodup_singleton _, fun a ha hb => ?_⟩
      exact hk ((List.mem_singleton.mp hb) ▸ ha)

/-- fieldGroups_keys_nodup: distinct groups carry distinct canonical
keys. -/
theorem fieldGroups_keys_nodup {ms : List ExtractedField} :
    ((fieldGroups ms).map Prod.fst).Nodup := by
  rw [fieldGroups_eq_foldl]
  exact fieldGroups_foldl_nodup ms [] (by simp)

/-- addToGroup_keys_mono: existing group keys survive an insertion. -/
theorem addToGroup_keys_mono {gs : List (Str × List ExtractedField)}
    {k₀ : Str} (k : Str) (m : ExtractedField) (h : k₀ ∈ gs.map Prod.fst) :
    k₀ ∈ (addToGroup gs k m).map Prod.fst := by
  rw [addToGroup_keys]
  by_cases hk : k ∈ gs.map Prod.fst
  · rwa [if_pos hk]
  · rw [if_neg hk]; exact List.mem_append_left _ h

/-- addToGroup_keys_self: the inserted key is a group key afterwards. -/
theorem addToGroup_keys_self (gs : List (Str × List ExtractedField))
    (k : Str) (m : ExtractedField) : k ∈ (addToGroup gs k m).map Prod.fst := by
  rw [addToGroup_keys]
  by_cases hk : k ∈ gs.map Prod.fst
  · rwa [if_pos hk]
  · rw [if_neg hk]; simp

/-- fieldGroups_foldl_keys_mono: group keys survive the whole fold. -/
theorem fieldGroups_foldl_keys_mono :
    ∀ (ms : List ExtractedField) (gs : List (Str × List ExtractedField)) (k₀ : Str),
    k₀ ∈ gs.map Prod.fst →
    k₀ ∈ ((ms.foldl (fun gs m => addToGroup gs (normalizeFieldName m.key) m) gs).map
      Prod.fst) := by
  intro ms
  induction ms with
  | nil => intro gs k₀ h; exact h
  | cons m t ih =>
    intro gs k₀ h
    rw [List.foldl_cons]
    exact ih _ k₀ (addToGroup_keys_mono _ _ h)

/-- fieldGroups_foldl_covers: every processed match has a group keyed by
its canonical key, whatever the starting accumulator. -/
theorem fieldGroups_foldl_covers :
    ∀ (ms : List ExtractedField) (gs : List (Str × List ExtractedField))
      (f : ExtractedField), f ∈ ms →
    normalizeFieldName f.key ∈
      ((ms.foldl (fun gs m => addToGroup gs (normalizeFieldName m.key) m) gs).map
        Prod.fst) := by
  intro ms
  induction ms with
  | nil => intro gs f h; cases h
  | cons m t ih =>
    intro gs f h
    rw [List.foldl_cons]
    rcases List.mem_cons.mp h with h1 | h1
    · subst h1
      exact fieldGroups_foldl_keys_mono t _ _ (addToGroup_keys_self _ _ _)
    · exact ih _ f h1

/-- fieldGroups_covers: every match has a group keyed by its canonical
key. -/
theorem fieldGroups_covers {ms : List ExtractedField} {f : ExtractedField}
    (h : f ∈ ms) : normalizeFieldName f.key ∈ (fieldGroups ms).map Prod.fst := by
  rw [fieldGroups_eq_foldl]
  exact fieldGroups_foldl_covers ms [] f h

/-- mem_dedup_foldl: every entry of the resolution fold is an old entry
or the winner of one of the processed groups, keyed by its original
key. -/
theorem mem_dedup_foldl :
    ∀ (gs : List (Str × List ExtractedField)) (acc : List (Str × ExtractedField))
      (q : Str × ExtractedField), q ∈ gs.foldl dedupStep acc →
    q ∈ acc ∨ ∃ g ∈ gs, ∃ x xs, g.2 = x :: xs ∧
      q = ((selectBest x xs).key, selectBest x xs) := by
  intro gs
  induction gs with
  | nil => intro acc q hq; exact Or.inl hq
  | cons g t ih =>
    intro acc q hq
    rw [List.foldl_cons] at hq
    rcases ih _ q hq with h1 | ⟨g₀, hg₀, x, xs, hx, hq₀⟩
    · unfold dedupStep at h1
      rcases hg : g.2 with _ | ⟨x, xs⟩
      · rw [hg] at h1
        exact Or.inl h1
      · rw [hg] at h1
        rcases mem_upsert h1 with h2 | h2
        · exact Or.inl h2
        · exact Or.inr ⟨g, by simp, x, xs, hg, h2⟩
    · exact Or.inr ⟨g₀, List.mem_cons_of_mem _ hg₀, x, xs, hx, hq₀⟩

/-- canon_dedup_foldl: processing groups with pairwise-distinct keys
appends exactly one entry per group, so the canonical keys of the
result are the accumulator's followed by the group keys. -/
theorem canon_dedup_foldl :
    ∀ (gs : List (Str × List ExtractedField)) (acc : List (Str × ExtractedField)),
    (∀ g ∈ gs, ∀ f ∈ g.2, normalizeFieldName f.key = g.1) →
    (∀ g ∈ gs, g.2 ≠ []) →
    ((acc.map fun p => normalizeFieldName p.1) ++ gs.map Prod.fst).Nodup →
    (gs.foldl dedupStep acc).map (fun p => normalizeFieldName p.1) =
      (acc.map fun p => normalizeFieldName p.1) ++ gs.map Prod.fst := by
  intro gs
  induction gs with
  | nil => intro acc _ _ _; simp
  | cons g t ih =>
    intro acc hkey hne hnd
    rw [List.foldl_cons]
    rcases hg : g.2 with _ | ⟨x, xs⟩
    · exact absurd hg (hne g (by simp))
    · have hbest : selectBest x xs ∈ g.2 := by rw [hg]; exact selectBest_mem x xs
      have hbk : normalizeFieldName (selectBest x xs).key = g.1 :=
        hkey g (by simp) _ hbest
      have hfresh : ∀ p ∈ acc, p.1 ≠ (selectBest x xs).key := by
        intro p hp hcontra
        have h1 : normalizeFieldName p.1 = g.1 := by rw [hcontra, hbk]
        have h2 : g.1 ∈ acc.map fun p => normalizeFieldName p.1 :=
          h1 ▸ List.mem_map_of_mem _ hp
        have h3 : g.1 ∉ acc.map fun p => normalizeFieldName p.1 := by
          have := (List.nodup_append.mp hnd).2.2
          exact fun hc => this hc (by simp)
        exact h3 h2
      have hstep : dedupStep acc g = acc ++ [((selectBest x xs).key, selectBest x xs)] := by
        unfold dedupStep
        rw [hg]
        exact upsert_of_fresh hfresh
      rw [hstep]
      have hmapeq : ((acc ++ [((selectBest x xs).key, selectBest x xs)]).map
          fun p => normalizeFieldName p.1) =
          (acc.map fun p => normalizeFieldName p.1) ++ [g.1] := by
        rw [List.map_append]
        simp [hbk]
      have := ih (acc ++ [((selectBest x xs).key, selectBest x xs)])
        (fun g₀ hg₀ => hkey g₀ (List.mem_cons_of_mem _ hg₀))
        (fun g₀ hg₀ => hne g₀ (List.mem_cons_of_mem _ hg₀))
        (by
          rw [hmapeq, List.append_assoc]
          simpa using hnd)
      rw [this, hmapeq]
      simp

/-- mem_dedup: every entry of the resolved mapping is keyed by the
original key of its field, and the field is one of the candidates. -/
theorem mem_dedup {ms : List ExtractedField} {q : Str × ExtractedField}
    (h : q ∈ deduplicateFields ms) : q.1 = q.2.key ∧ q.2 ∈ ms := by
  unfold deduplicateFields at h
  rcases mem_dedup_foldl _ _ _ h with h1 | ⟨g, hg, x, xs, hx, hq⟩
  · cases h1
  · have hbest : selectBest x xs ∈ g.2 := by rw [hx]; exact selectBest_mem x xs
    have := (fieldGroups_inv g hg _ hbest).1
    rw [hq]
    exact ⟨rfl, this⟩

/-- dedup_canon_eq: the canonical keys of the resolved mapping are
exactly the group keys, in order. -/
theorem dedup_canon_eq {ms : List ExtractedField} :
    (deduplicateFields ms).map (fun p => normalizeFieldName p.1) =
      (fieldGroups ms).map Prod.fst := by
  unfold deduplicateFields
  have := canon_dedup_foldl (fieldGroups ms) []
    (fun g hg f hf => (fieldGroups_inv g hg f hf).2)
    fieldGroups_ne_nil
    (by simpa using fieldGroups_keys_nodup)
  simpa using this

/-- dedup_canon_nodup: no two entries of the resolved mapping share a
canonical key. -/
theorem dedup_canon_nodup {ms : List ExtractedField} :
    ((deduplicateFields ms).map fun p => normalizeFieldName p.1).Nodup := by
  rw [dedup_canon_eq]
  exact fieldGroups_keys_nodup

/-- dedup_covers: every candidate's canonical key is represented in the
resolved mapping. -/
theorem dedup_covers {ms : List ExtractedField} {f : ExtractedField}
    (h : f ∈ ms) :
    ∃ p ∈ deduplicateFields ms,
      normalizeFieldName p.1 = normalizeFieldName f.key := by
  have h1 : normalizeFieldName f.key ∈
      (deduplicateFields ms).map fun p => normalizeFieldName p.1 := by
    rw [dedup_canon_eq]
    exact fieldGroups_covers h
  obtain ⟨p, hp, hpe⟩ := List.mem_map.mp h1
  exact ⟨p, hp, hpe⟩

/-- mem_extract: every entry of the returned mapping is keyed by the
original key of its field, and its field is a surviving candidate. -/
theorem mem_extract {text : Str} {mc : ℤ} {p : Str × ExtractedField}
    (h : p ∈ extractFieldsAdvanced text mc) :
    p.1 = p.2.key ∧ p.2 ∈ allMatches text mc := by
  unfold extractFieldsAdvanced at h
  by_cases he : text = [] ∨ stripL text = []
  · rw [if_pos he] at h
    cases h
  · rw [if_neg he] at h
    exact mem_dedup h

/-- stripL_eq_nil_of_space: stripping a whitespace-only string leaves
nothing. -/
theorem stripL_eq_nil_of_space {s : Str} (h : ∀ c ∈ s, pyIsSpace c) :
    stripL s = [] := by
  unfold stripL
  rw [List.dropWhile_eq_nil_iff.mpr h]
  rfl

/-- replaceAux_single: replacing a one-character pattern is a pointwise
substitution. -/
theorem replaceAux_single (a : Char) (bs : Str) :
    ∀ (s : Str) (fuel : Nat), s.length ≤ fuel →
    replaceAux a [] bs fuel s =
      s.flatMap (fun c => if c = a then bs else [c]) := by
  intro s
  induction s with
  | nil => intro fuel _; cases fuel <;> rfl
  | cons c t ih =>
    intro fuel hf
    match fuel, hf with
    | fuel + 1, hf =>
      show (if ([a]).isPrefixOf (c :: t) then
          bs ++ replaceAux a [] bs fuel (t.drop 0)
        else c :: replaceAux a [] bs fuel t) = _
      have hpre : ([a]).isPrefixOf (c :: t) = (a == c) := by
        simp [List.isPrefixOf]
      rw [hpre, List.drop_zero]
      by_cases hac : a = c
      · rw [if_pos (by simp [hac]), List.flatMap_cons, if_pos hac.symm,
          ih fuel (by simpa using hf)]
      · rw [if_neg (by simp [hac]), List.flatMap_cons,
          if_neg (fun hc => hac hc.symm), ih fuel (by simpa using hf)]
        rfl

/-- replaceL_comma_append_pdf: replacing commas by periods in a string
ending in `.pdf` keeps the `.pdf` ending. -/
theorem replaceL_comma_append_pdf (x : Str) :
    replaceL (x ++ sl ".pdf") (sl ",") (sl ".") =
      replaceL x (sl ",") (sl ".") ++ sl ".pdf" := by
  show replaceAux ',' [] (sl ".") (x ++ sl ".pdf").length (x ++ sl ".pdf") =
    replaceAux ',' [] (sl ".") x.length x ++ sl ".pdf"
  rw [replaceAux_single _ _ _ _ (le_refl _), replaceAux_single _ _ _ _ (le_refl _),
    List.flatMap_append]
  rfl

/-- pdfShape abbreviates: the optional result is absent or a string
ending in `.pdf`. -/
def pdfShape (o : Option Str) : Prop :=
  o = none ∨ ∃ a : Str, o = some (a ++ sl ".pdf")

/-- tryFakturPattern_shape: the Faktur Keluaran extractor yields nothing
or a `.pdf` name. -/
theorem tryFakturPattern_shape (text : Str) : pdfShape (tryFakturPattern text) := by
  unfold tryFakturPattern pdfShape
  cases pySearch reBuyerBlock text with
  | none => exact Or.inl rfl
  | some bm =>
    dsimp only
    cases pySearch reNamaLine bm.1 with
    | none => exact Or.inl rfl
    | some nm =>
      dsimp only
      cases pySearch reReferensi text with
      | none => exact Or.inl rfl
      | some rm =>
        dsimp only
        by_cases h : (pyMatch reDigitsDot (cleanFilename (groupStr nm.2 1))).isSome
        · rw [if_pos h]; exact Or.inl rfl
        · rw [if_neg h]
          exact Or.inr ⟨_, by rw [List.append_assoc, List.append_assoc]⟩

/-- tryFakturMasukanPattern_shape: the Faktur Masukan extractor yields
nothing or a `.pdf` name. -/
theorem tryFakturMasukanPattern_shape (text : Str) :
    pdfShape (tryFakturMasukanPattern text) := by
  unfold tryFakturMasukanPattern pdfShape
  cases pySearch rePkpBlock text with
  | none => exact Or.inl rfl
  | some bm =>
    dsimp only
    cases pySearch reNamaLine bm.1 with
    | none => exact Or.inl rfl
    | some nm =>
      dsimp only
      cases pySearch reReferensiParen text with
      | none => exact Or.inl rfl
      | some rm =>
        dsimp only
        by_cases h : (pyMatch reDigitsDot (cleanFilename (groupStr nm.2 1))).isSome
        · rw [if_pos h]; exact Or.inl rfl
        · rw [if_neg h]
          exact Or.inr ⟨_, by rw [List.append_assoc, List.append_assoc]⟩

/-- tryFaktur2IndomarcoPattern_shape: the Indomarco extractor yields
nothing or a `.pdf` name. -/
theorem tryFaktur2IndomarcoPattern_shape (text : Str) :
    pdfShape (tryFaktur2IndomarcoPattern text) := by
  unfold tryFaktur2IndomarcoPattern pdfShape
  cases pySearch rePkpBlock text with
  | none => exact Or.inl rfl
  | some bm =>
    dsimp only
    cases pySearch reNamaLine bm.1 with
    | none => exact Or.inl rfl
    | some nm =>
      dsimp only
      cases pySearch rePerj text with
      | none => exact Or.inl rfl
      | some rm =>
        dsimp only
        by_cases h : (pyMatch reDigitsDot (cleanFilename (groupStr nm.2 1))).isSome
        · rw [if_pos h]; exact Or.inl rfl
        · rw [if_neg h]
          exact Or.inr ⟨_, by rw [List.append_assoc, List.append_assoc]⟩

/-- tryFakturPenjualanPattern_shape: the Faktur Penjualan extractor
yields nothing or a `.pdf` name. -/
theorem tryFakturPenjualanPattern_shape (text : Str) :
    pdfShape (tryFakturPenjualanPattern text) := by
  unfold tryFakturPenjualanPattern pdfShape
  cases pySearch reNoFaktur text with
  | none => exact Or.inl rfl
  | some m =>
    dsimp only
    exact Or.inr ⟨_, by rw [List.append_assoc]⟩

/-- tryBuktiPotongPattern_shape: the Bukti Potong extractor yields
nothing or a `.pdf` name. -/
theorem tryBuktiPotongPattern_shape (text : Str) :
    pdfShape (tryBuktiPotongPattern text) := by
  unfold tryBuktiPotongPattern pdfShape
  cases pySearch reMasaPajak text with
  | none => exact Or.inl rfl
  | some mm =>
    cases pySearch reNamaUpper text with
    | none => exact Or.inl rfl
    | some nm =>
      cases pySearch reNomorDokumen text with
      | none => exact Or.inl rfl
      | some dm =>
        dsimp only
        exact Or.inr ⟨_, by
          rw [List.append_assoc, List.append_assoc, List.append_assoc,
            List.append_assoc]⟩

/-- tryBillingPattern_shape: the Kode Billing extractor yields nothing
or a `.pdf` name. -/
theorem tryBillingPattern_shape (text : Str) :
    pdfShape (tryBillingPattern text) := by
  unfold tryBillingPattern pdfShape
  cases pySearch reKodeBilling text with
  | none => exact Or.inl rfl
  | some km =>
    cases pySearch reNamaBilling text with
    | none => exact Or.inl rfl
    | some nm =>
      cases pySearch reMasaBilling text with
      | none => exact Or.inl rfl
      | some mm =>
        dsimp only
        by_cases h : (pySearch reUnifikasi text).isSome
        · rw [if_pos h]
          exact Or.inr ⟨_, by
            rw [List.append_assoc, List.append_assoc, List.append_assoc,
              List.append_assoc, List.append_assoc]⟩
        · rw [if_neg h]
          exact Or.inr ⟨_, by
            rw [List.append_assoc, List.append_assoc, List.append_assoc,
              List.append_assoc, List.append_assoc]⟩

/-- tryBuktiTfPattern_shape: the Bukti Transfer extractor yields nothing
or a `.pdf` name (the comma-to-period substitution keeps the ending). -/
theorem tryBuktiTfPattern_shape (text : Str) :
    pdfShape (tryBuktiTfPattern text) := by
  unfold tryBuktiTfPattern pdfShape
  cases findNamaPenerima (pyLines text) with
  | none =>
    cases pySearch reJumlah text <;> cases pySearch reDisetujui text <;>
      exact Or.inl rfl
  | some np =>
    cases pySearch reJumlah text with
    | none => cases pySearch reDisetujui text <;> exact Or.inl rfl
    | some jm =>
      cases pySearch reDisetujui text with
      | none => exact Or.inl rfl
      | some dm =>
        simp only [Option.map_some']
        by_cases h : np ≠ [] ∧ collapseWs (groupStr jm.2 1) ≠ [] ∧
            groupStr dm.2 1 ≠ []
        · rw [if_pos h]
          exact Or.inr ⟨replaceL (cleanFilename np ++ sl " - " ++
            collapseWs (groupStr jm.2 1) ++ sl " - " ++
            cleanFilename (groupStr dm.2 1)) (sl ",") (sl "."),
            congrArg some (replaceL_comma_append_pdf _)⟩
        · rw [if_neg h]
          exact Or.inl rfl

/-! ### Claim theorems

Confidence values are in hundredths of the float values of the source:
the model value 100 is the float 1.0, 60 is the threshold 0.6, and so
on. -/

/-- C1 (counterexample): the claim says a line matched by the reserved
highest-trust pattern (`formal_indonesian`) always scores exactly 1.0.
On the input line `Nomor: !!!???` the reserved pattern matches, yet the
returned field produced by `formal_indonesian` has confidence 0.98 (the
scorer has no special case for the reserved label: base 0.98 + 0.15
vocabulary + 0.05 title case - 0.25 special characters + 0.05 single
separator = 0.98, not 1.0). -/
theorem claim_C1_counterexample :
    extractFieldsAdvanced (sl "Nomor: !!!???") 60 =
      [(sl "Nomor", ⟨sl "Nomor", sl "!!!???", 98, "formal_indonesian", 0⟩)] ∧
    (98 : ℤ) ≠ 100 := ⟨by decide, by decide⟩

/-- C1 (amended): the reserved pattern has the highest base confidence,
and on a recognized canonical line such as `Name: Jane Doe` the stacked
bonuses push the clamped score to exactly 1.0; but the scorer applies
the same adjustments to the reserved pattern as to any other, so its
candidates are not forced to 1.0 in general. -/
theorem claim_C1_amended_certainty :
    extractFieldsAdvanced (sl "Name: Jane Doe") 60 =
      [(sl "Name", ⟨sl "Name", sl "Jane Doe", 100, "formal_indonesian", 0⟩)] := by
  decide

/-- C2 (counterexample): the claim says `extract` on
`dan atau dari: untuk` at threshold 0.6 returns an empty mapping; the
code returns the field `dan atau dari` mapped to `untuk` (the stopword
penalty 0.40 and the single-separator bonus 0.05 leave the score at
exactly the threshold 0.6, and the whole-label filler check compares
the despaced label `danataudari`, which equals no filler word). -/
theorem claim_C2_counterexample :
    extractFieldsAdvanced (sl "dan atau dari: untuk") 60 ≠ [] := by decide

/-- C2 (amended): a candidate whose label contains filler words is not
excluded outright: it receives a 0.40 penalty (plus 0.50 more only when
the despaced label equals a filler word) and is dropped only when the
resulting score falls below the threshold.  On `dan atau dari: untuk`
at threshold 0.6 the only candidate scores exactly 0.6
(0.95 - 0.40 + 0.05) and the mapping sending `dan atau dari` to
`untuk` is returned. -/
theorem claim_C2_amended_stopword :
    extractFieldsAdvanced (sl "dan atau dari: untuk") 60 =
      [(sl "dan atau dari",
        ⟨sl "dan atau dari", sl "untuk", 60, "standard_colon", 0⟩)] ∧
    calculateConfidence (sl "dan atau dari") (sl "untuk") 95
      (sl "dan atau dari: untuk") "standard_colon" = 60 := ⟨by decide, by decide⟩

/-- C3: every field of the mapping returned by `extract` has confidence
at least the caller-supplied threshold. -/
theorem claim_C3_threshold (text : Str) (mc : ℤ) :
    ∀ p ∈ extractFieldsAdvanced text mc, mc ≤ p.2.confidence := by
  intro p hp
  exact (mem_allMatches (mem_extract hp).2).1

/-- Witness for C3 at a concrete input. -/
theorem claim_C3_witness :
    ((sl "Name", ⟨sl "Name", sl "Jane Doe", 100, "formal_indonesian", 0⟩) :
      Str × ExtractedField) ∈ extractFieldsAdvanced (sl "Name: Jane Doe") 60 ∧
    (60 : ℤ) ≤ 100 :=
  ⟨by decide, claim_C3_threshold (sl "Name: Jane Doe") 60
    ((sl "Name", ⟨sl "Name", sl "Jane Doe", 100, "formal_indonesian", 0⟩) :
      Str × ExtractedField) (by decide)⟩

/-- C4: every score produced by the confidence scorer is clamped to
[0, 1] (here [0, 100] in hundredths), and consequently every field of
the returned mapping has confidence in [0, 1]. -/
theorem claim_C4_confidence_bounds :
    (∀ (k v : Str) (b : ℤ) (l : Str) (p : String),
      0 ≤ calculateConfidence k v b l p ∧ calculateConfidence k v b l p ≤ 100) ∧
    (∀ (text : Str) (mc : ℤ), ∀ p ∈ extractFieldsAdvanced text mc,
      0 ≤ p.2.confidence ∧ p.2.confidence ≤ 100) := by
  constructor
  · exact calcConf_mem_unit
  · intro text mc p hp
    obtain ⟨_, _, k, v, b, l, pn, n, hf⟩ := mem_allMatches (mem_extract hp).2
    rw [hf]
    exact calcConf_mem_unit k v b l pn

/-- Witness for C4 at a concrete input. -/
theorem claim_C4_witness :
    ((sl "Nama", ⟨sl "Nama", sl "Budi", 100, "formal_indonesian", 0⟩) :
      Str × ExtractedField) ∈
        extractFieldsAdvanced (sl "Nama: Budi\nAlamat: Jakarta") 50 ∧
    (0 ≤ (100 : ℤ) ∧ (100 : ℤ) ≤ 100) :=
  ⟨by decide,
    claim_C4_confidence_bounds.2 (sl "Nama: Budi\nAlamat: Jakarta") 50
      ((sl "Nama", ⟨sl "Nama", sl "Budi", 100, "formal_indonesian", 0⟩) :
        Str × ExtractedField) (by decide)⟩

/-- C5: no two display keys of the returned mapping normalize to the
same canonical key, and the resolver keeps exactly one entry per
canonical key present among the surviving candidates: at most one by
the no-duplicates part, at least one by the coverage part. -/
theorem claim_C5_canonical_unique :
    (∀ (text : Str) (mc : ℤ),
      (∀ p ∈ extractFieldsAdvanced text mc, ∀ q ∈ extractFieldsAdvanced text mc,
        p.1 ≠ q.1 → normalizeFieldName p.1 ≠ normalizeFieldName q.1) ∧
      ((extractFieldsAdvanced text mc).map fun p => normalizeFieldName p.1).Nodup) ∧
    (∀ (ms : List ExtractedField), ∀ f ∈ ms,
      ∃ p ∈ deduplicateFields ms,
        normalizeFieldName p.1 = normalizeFieldName f.key) := by
  constructor
  · intro text mc
    have hnod : ((extractFieldsAdvanced text mc).map
        fun p => normalizeFieldName p.1).Nodup := by
      unfold extractFieldsAdvanced
      by_cases he : text = [] ∨ stripL text = []
      · rw [if_pos he]; exact List.nodup_nil
      · rw [if_neg he]; exact dedup_canon_nodup
    refine ⟨?_, hnod⟩
    intro p hp q hq hne hcontra
    exact hne (congrArg Prod.fst (List.inj_on_of_nodup_map hnod hp hq hcontra))
  · intro ms f hf
    exact dedup_covers hf

/-- Witness for C5 at a concrete candidate list. -/
theorem claim_C5_witness :
    (⟨sl "Telp", sl "0811", 90, "standard_colon", 0⟩ : ExtractedField) ∈
      [(⟨sl "Telp", sl "0811", 90, "standard_colon", 0⟩ : ExtractedField)] ∧
    ∃ p ∈ deduplicateFields
      [(⟨sl "Telp", sl "0811", 90, "standard_colon", 0⟩ : ExtractedField)],
      normalizeFieldName p.1 = normalizeFieldName (sl "Telp") :=
  ⟨by decide, claim_C5_canonical_unique.2
    [(⟨sl "Telp", sl "0811", 90, "standard_colon", 0⟩ : ExtractedField)]
    (⟨sl "Telp", sl "0811", 90, "standard_colon", 0⟩ : ExtractedField)
    (by decide)⟩

/-- C6: between two candidates of the same canonical-key group with
identical confidence, the resolver selects the one with the smaller
source line number, whatever their order in the group; in particular on
`Name: A` followed by `Name: B` (identical patterns and confidences on
both lines) the field of the earlier line, with value `A`, is kept. -/
theorem claim_C6_tiebreak :
    (∀ c₁ c₂ : ExtractedField,
      normalizeFieldName c₁.key = normalizeFieldName c₂.key →
      c₁.confidence = c₂.confidence →
      c₁.line_number < c₂.line_number →
      selectBest c₁ [c₂] = c₁ ∧ selectBest c₂ [c₁] = c₁) ∧
    extractFieldsAdvanced (sl "Name: A\nName: B") 60 =
      [(sl "Name", ⟨sl "Name", sl "A", 93, "formal_indonesian", 0⟩)] := by
  constructor
  · intro c₁ c₂ _ hconf hline
    have hne : c₁.line_number ≠ c₂.line_number := Nat.ne_of_lt hline
    have h1 : fieldLt c₂ c₁ = false := by
      unfold fieldLt
      rw [if_pos hconf.symm, if_neg (Ne.symm hne)]
      simp only [decide_eq_false_iff_not]
      omega
    have h2 : fieldLt c₁ c₂ = true := by
      unfold fieldLt
      rw [if_pos hconf, if_neg hne]
      simpa using hline
    constructor
    · show List.foldl _ c₁ [c₂] = c₁
      simp [h1]
    · show List.foldl _ c₂ [c₁] = c₁
      simp [h2]
  · decide

/-- Witness for C6 at two concrete tied candidates. -/
theorem claim_C6_witness :
    (normalizeFieldName (sl "Nama") = normalizeFieldName (sl "Nama") ∧
      (95 : ℤ) = 95 ∧ 0 < 1) ∧
    (selectBest (⟨sl "Nama", sl "X", 95, "standard_colon", 0⟩ : ExtractedField)
        [⟨sl "Nama", sl "Y", 95, "standard_colon", 1⟩] =
        (⟨sl "Nama", sl "X", 95, "standard_colon", 0⟩ : ExtractedField) ∧
      selectBest (⟨sl "Nama", sl "Y", 95, "standard_colon", 1⟩ : ExtractedField)
        [⟨sl "Nama", sl "X", 95, "standard_colon", 0⟩] =
        (⟨sl "Nama", sl "X", 95, "standard_colon", 0⟩ : ExtractedField)) :=
  ⟨⟨rfl, rfl, by decide⟩, claim_C6_tiebreak.1 _ _ rfl rfl (by decide)⟩

/-- C7: every candidate considered by the scanner has a stripped key of
2 to 40 characters and a stripped value of 1 to 100 characters, and so
does every field of the returned mapping. -/
theorem claim_C7_length_bounds :
    (∀ (text : Str) (mc : ℤ), ∀ f ∈ allMatches text mc,
      2 ≤ f.key.length ∧ f.key.length ≤ 40 ∧
      1 ≤ f.value.length ∧ f.value.length ≤ 100) ∧
    (∀ (text : Str) (mc : ℤ), ∀ p ∈ extractFieldsAdvanced text mc,
      2 ≤ p.2.key.length ∧ p.2.key.length ≤ 40 ∧
      1 ≤ p.2.value.length ∧ p.2.value.length ≤ 100) := by
  constructor
  · intro text mc f hf
    exact (mem_allMatches hf).2.1
  · intro text mc p hp
    exact (mem_allMatches (mem_extract hp).2).2.1

/-- Witness for C7 at a concrete input. -/
theorem claim_C7_witness :
    ((sl "Alamat", ⟨sl "Alamat", sl "Jakarta", 100, "formal_indonesian", 1⟩) :
      Str × ExtractedField) ∈
        extractFieldsAdvanced (sl "Nama: Budi\nAlamat: Jakarta") 60 ∧
    (2 ≤ (sl "Alamat").length ∧ (sl "Alamat").length ≤ 40 ∧
      1 ≤ (sl "Jakarta").length ∧ (sl "Jakarta").length ≤ 100) :=
  ⟨by decide,
    claim_C7_length_bounds.2 (sl "Nama: Budi\nAlamat: Jakarta") 60
      ((sl "Alamat", ⟨sl "Alamat", sl "Jakarta", 100, "formal_indonesian", 1⟩) :
        Str × ExtractedField) (by decide)⟩

/-- C8: an empty or whitespace-only input yields an empty mapping for
every threshold, and no error (the model function is total and takes
the early-return branch). -/
theorem claim_C8_empty_input (text : Str) (mc : ℤ)
    (h : ∀ c ∈ text, pyIsSpace c) :
    extractFieldsAdvanced text mc = [] := by
  unfold extractFieldsAdvanced
  rw [if_pos (Or.inr (stripL_eq_nil_of_space h))]

/-- Witness for C8 on a whitespace-only input (the empty input is the
degenerate case of the same hypothesis). -/
theorem claim_C8_witness :
    (∀ c ∈ sl "  \t\n ", pyIsSpace c) ∧
    extractFieldsAdvanced (sl "  \t\n ") 60 = [] :=
  ⟨by decide, claim_C8_empty_input (sl "  \t\n ") 60 (by decide)⟩

/-- C9 (counterexample): the claim says the normalizer is idempotent;
it is not: `phoneame` normalizes to `teleponame` (the `phone` to
`telepon` rewrite), and a second application finds the newly created
substring `name` and rewrites again, giving `teleponama`. -/
theorem claim_C9_counterexample :
    normalizeFieldName (normalizeFieldName (sl "phoneame")) ≠
      normalizeFieldName (sl "phoneame") := by decide

/-- C9 (amended): the normalizer is deterministic: it is a pure
function of the raw label, so repeated calls on equal labels give equal
canonical keys; but it is not idempotent under repeated application. -/
theorem claim_C9_amended_deterministic (s t : Str) (h : s = t) :
    normalizeFieldName s = normalizeFieldName t := by rw [h]

/-- Witness for C9 at a concrete label. -/
theorem claim_C9_witness :
    sl "Nomor KTP" = sl "Nomor KTP" ∧
    normalizeFieldName (sl "Nomor KTP") = normalizeFieldName (sl "Nomor KTP") :=
  ⟨rfl, claim_C9_amended_deterministic (sl "Nomor KTP") (sl "Nomor KTP") rfl⟩

/-- C10: `run_universal_extraction` always returns, with either no
result or a string ending in `.pdf`; and for every template name other
than the seven built-in ones it returns no result. -/
theorem claim_C10_universal_shape (text : Str) (name : String) :
    (runUniversalExtraction text name = none ∨
      ∃ a : Str, runUniversalExtraction text name = some (a ++ sl ".pdf")) ∧
    (name ∉ builtInTemplates.map Prod.fst →
      runUniversalExtraction text name = none) := by
  unfold runUniversalExtraction
  cases hf : builtInTemplates.find? (fun p => p.1 = name) with
  | none => exact ⟨Or.inl rfl, fun _ => rfl⟩
  | some p =>
    have hmem : p ∈ builtInTemplates := List.mem_of_find?_eq_some hf
    have hname : p.1 = name := by simpa using List.find?_some hf
    constructor
    · show pdfShape (p.2 text)
      unfold builtInTemplates at hmem
      simp only [List.mem_cons, List.not_mem_nil, or_false] at hmem
      rcases hmem with h|h|h|h|h|h|h
      · rw [h]; exact tryFakturPattern_shape text
      · rw [h]; exact tryFakturMasukanPattern_shape text
      · rw [h]; exact tryFakturPenjualanPattern_shape text
      · rw [h]; exact tryFaktur2IndomarcoPattern_shape text
      · rw [h]; exact tryBuktiPotongPattern_shape text
      · rw [h]; exact tryBillingPattern_shape text
      · rw [h]; exact tryBuktiTfPattern_shape text
    · intro hnot
      exact absurd (hname ▸ List.mem_map_of_mem Prod.fst hmem) hnot

/-- Witness for C10 at a concrete unknown template name. -/
theorem claim_C10_witness :
    "invalid template" ∉ builtInTemplates.map Prod.fst ∧
    runUniversalExtraction (sl "hello world") "invalid template" = none :=
  ⟨by decide,
    (claim_C10_universal_shape (sl "hello world") "invalid template").2
      (by decide)⟩

end PDFRenamer
